import Mathlib

/-!
Verification development for the boot splash BMP decoder
(`src/boot/efi/splash.c`).

The source file is shallowly embedded below:
* the raw file is a `List Nat` of bytes (little-endian multi-byte fields);
* `bmp_parse_header` mirrors the C function of the same name check by check;
* `pixel_blend` mirrors the packed 32-bit alpha blend, with `% 2 ^ 32`
  modelling `uint32_t` wraparound;
* `bmp_to_blt` mirrors the pixel converter; its state carries the input
  cursor, the output buffer, and logs of all output writes and of every
  byte offset of the input file that is dereferenced;
* `graphics_splash` mirrors the compositor, recording the calls made to
  the display protocol as a trace of `DisplayOp`s (external collaborators
  are modelled as always succeeding).
-/

/-- Status values returned by the C code.  The source uses exactly
`EFI_SUCCESS`, `EFI_INVALID_PARAMETER` and `EFI_UNSUPPORTED`; these are
pairwise distinct numeric constants in `efi.h`, hence distinct
constructors here. -/
inductive EfiStatus where
  | success
  | invalidParameter
  | unsupported
deriving DecidableEq

/-- Little-endian 16-bit read at byte offset `off` (out-of-range bytes read
as 0; the C code only dereferences offsets it has bounds-checked, and the
read log of the converter is what tracks actual dereferences). -/
def readU16 (bmp : List Nat) (off : Nat) : Nat :=
  bmp.getD off 0 + 256 * bmp.getD (off + 1) 0

/-- Little-endian 32-bit read at byte offset `off`. -/
def readU32 (bmp : List Nat) (off : Nat) : Nat :=
  bmp.getD off 0 + 256 * bmp.getD (off + 1) 0 +
    65536 * bmp.getD (off + 2) 0 + 16777216 * bmp.getD (off + 3) 0

/-- Fields of `struct bmp_dib` used by the code.  Offsets are relative to
the start of the file: the DIB header follows the 14-byte `bmp_file`
header. -/
structure BmpDib where
  size : Nat
  x : Nat
  y : Nat
  depth : Nat
  compression : Nat
  colors_used : Nat
deriving DecidableEq

/-- Decode `struct bmp_dib` at its fixed position (byte 14). -/
def parse_dib (bmp : List Nat) : BmpDib :=
  { size := readU32 bmp 14
    x := readU32 bmp 18
    y := readU32 bmp 22
    depth := readU16 bmp 28
    compression := readU32 bmp 30
    colors_used := readU32 bmp 46 }

/-- Result of a successful parse: the DIB fields, the byte offset of the
color map (`map` out-parameter) and the byte offset of the pixel data
(`pixmap` out-parameter). -/
structure ParseOk where
  dib : BmpDib
  mapOff : Nat
  pixOff : Nat
deriving DecidableEq

/-- Row byte size as computed at splash.c line 95:
`((UINTN) dib->depth * dib->x + 31) / 32 * 4`. -/
def bmp_row_size (dib : BmpDib) : Nat := (dib.depth * dib.x + 31) / 32 * 4

/-- Checks of `bmp_parse_header` after the depth/compression `switch`
(splash.c lines 95-135). -/
def bmp_parse_header_tail (bmp : List Nat) (dib : BmpDib) : Except EfiStatus ParseOk :=
  let fileSize := readU32 bmp 2
  let fileOffset := readU32 bmp 10
  let row_size := bmp_row_size dib
  if fileSize - fileOffset < dib.y * row_size % 2 ^ 64 then .error .invalidParameter
  else if row_size * dib.y % 2 ^ 64 > 64 * 1024 * 1024 then .error .invalidParameter
  else if fileOffset < 14 + dib.size then .error .invalidParameter
  else if fileOffset > 14 + dib.size then
    let map_count :=
      if dib.colors_used ≠ 0 then dib.colors_used
      else if dib.depth = 1 ∨ dib.depth = 4 ∨ dib.depth = 8 then 2 ^ dib.depth
      else 0
    let map_size := fileOffset - (14 + dib.size)
    if map_size ≠ 4 * map_count then .error .invalidParameter
    else .ok ⟨dib, 14 + dib.size, fileOffset⟩
  else .ok ⟨dib, 14 + dib.size, fileOffset⟩
/-- Embedding of `bmp_parse_header` (splash.c lines 40-136).  All
arithmetic is exact except the `dib->y * row_size` products, which the C
code computes in 64-bit `UINTN` arithmetic and are therefore reduced
`% 2 ^ 64`. -/
def bmp_parse_header (bmp : List Nat) : Except EfiStatus ParseOk :=
  if bmp.length < 54 then .error .invalidParameter
  else if ¬ (bmp.getD 0 0 = 66 ∧ bmp.getD 1 0 = 77) then .error .invalidParameter
  else if readU32 bmp 2 ≠ bmp.length then .error .invalidParameter
  else if readU32 bmp 2 < readU32 bmp 10 then .error .invalidParameter
  else
    let dib := parse_dib bmp
    if dib.size < 40 then .error .unsupported
    else if dib.depth = 1 ∨ dib.depth = 4 ∨ dib.depth = 8 ∨ dib.depth = 24 then
      if dib.compression ≠ 0 then .error .unsupported
      else bmp_parse_header_tail bmp dib
    else if dib.depth = 16 ∨ dib.depth = 32 then
      if dib.compression ≠ 0 ∧ dib.compression ≠ 3 then .error .unsupported
      else bmp_parse_header_tail bmp dib
    else .error .unsupported


/-- A 10-byte input (all zeros): shorter than the combined header size. -/
def bmpTooSmall : List Nat := List.replicate 10 0

/-- A 54-byte input whose signature reads "BZ" instead of "BM". -/
def bmpBadSig : List Nat :=
  [66, 90, 54, 0, 0, 0, 0, 0, 0, 0, 54, 0, 0, 0] ++ List.replicate 40 0

/-- A 54-byte input whose declared size field is 53, one less than the
actual length. -/
def bmpSizeMismatch : List Nat :=
  [66, 77, 53, 0, 0, 0, 0, 0, 0, 0, 54, 0, 0, 0] ++ List.replicate 40 0

/-- A 54-byte input with bit depth 2 (unsupported) and otherwise valid
file header fields. -/
def bmpDepth2 : List Nat :=
  [66, 77, 54, 0, 0, 0, 0, 0, 0, 0, 54, 0, 0, 0,
   40, 0, 0, 0, 0, 0, 0, 0, 0, 0, 0, 0, 1, 0, 2, 0,
   0, 0, 0, 0] ++ List.replicate 20 0

/-- A 54-byte input with bit depth 8 and compression 1 (RLE,
unsupported). -/
def bmpRle8 : List Nat :=
  [66, 77, 54, 0, 0, 0, 0, 0, 0, 0, 54, 0, 0, 0,
   40, 0, 0, 0, 0, 0, 0, 0, 0, 0, 0, 0, 1, 0, 8, 0,
   1, 0, 0, 0] ++ List.replicate 20 0

/-- A 121-byte 8-bit 1x1 image declaring 16 used colors but supplying a
color-table gap of only 63 bytes (16 * 4 - 1). -/
def bmpBadColorTable : List Nat :=
  [66, 77, 121, 0, 0, 0, 0, 0, 0, 0, 117, 0, 0, 0,
   40, 0, 0, 0, 1, 0, 0, 0, 1, 0, 0, 0, 1, 0, 8, 0,
   0, 0, 0, 0, 0, 0, 0, 0, 0, 0, 0, 0, 0, 0, 0, 0,
   16, 0, 0, 0, 0, 0, 0, 0] ++ List.replicate 67 0

/-- A 62-byte 8-bit 1x1 image with a 1-entry palette whose single pixel
byte is 255: accepted by the validator, but the converter then looks up
palette entry 255 far past both the palette and the end of the file. -/
def bmpPaletteTrap : List Nat :=
  [66, 77, 62, 0, 0, 0, 0, 0, 0, 0, 58, 0, 0, 0,
   40, 0, 0, 0, 1, 0, 0, 0, 1, 0, 0, 0, 1, 0, 8, 0,
   0, 0, 0, 0, 0, 0, 0, 0, 0, 0, 0, 0, 0, 0, 0, 0,
   1, 0, 0, 0, 0, 0, 0, 0,
   0, 0, 0, 0,
   255, 0, 0, 0]

example : bmp_parse_header bmpTooSmall = .error .invalidParameter := rfl
example : bmp_parse_header bmpBadSig = .error .invalidParameter := rfl
example : bmp_parse_header bmpSizeMismatch = .error .invalidParameter := rfl
example : bmp_parse_header bmpDepth2 = .error .unsupported := rfl
example : bmp_parse_header bmpRle8 = .error .unsupported := rfl
example : bmp_parse_header bmpBadColorTable = .error .invalidParameter := rfl
example : bmp_parse_header bmpPaletteTrap =
    .ok ⟨⟨40, 1, 1, 8, 0, 1⟩, 54, 58⟩ := rfl

/-- C7 counterexample: the claim asserts the five rejections return five
pairwise distinct error kinds, but the 10-byte input and the "BZ"
signature input are rejected with the very same status value
`EFI_INVALID_PARAMETER`, so the five statuses are not pairwise
distinct. -/
theorem bmp_parse_header_statuses_collide :
    bmp_parse_header bmpTooSmall = bmp_parse_header bmpBadSig ∧
    bmp_parse_header bmpTooSmall = .error .invalidParameter ∧
    bmpTooSmall ≠ bmpBadSig := by
  refine ⟨rfl, rfl, by decide⟩

/-- C7 (amended): each of the five inputs is rejected, but the code
signals them with only two distinct status values: the 10-byte input,
the "BZ" signature and the size-field mismatch all yield
`EFI_INVALID_PARAMETER`, while depth 2 and RLE compression at depth 8
both yield `EFI_UNSUPPORTED`; those two values are distinct from each
other and from success. -/
theorem bmp_parse_header_reject_statuses :
    bmp_parse_header bmpTooSmall = .error .invalidParameter ∧
    bmp_parse_header bmpBadSig = .error .invalidParameter ∧
    bmp_parse_header bmpSizeMismatch = .error .invalidParameter ∧
    bmp_parse_header bmpDepth2 = .error .unsupported ∧
    bmp_parse_header bmpRle8 = .error .unsupported ∧
    EfiStatus.invalidParameter ≠ EfiStatus.unsupported ∧
    EfiStatus.invalidParameter ≠ EfiStatus.success ∧
    EfiStatus.unsupported ≠ EfiStatus.success :=
  ⟨rfl, rfl, rfl, rfl, rfl, by decide, by decide, by decide⟩

/-- Palette entry count as the spec words it for C8: the header's
colors-used count if non-zero, else `2 ^ depth` for depths at most 8 and
0 otherwise. -/
def paletteEntryCount (bmp : List Nat) : Nat :=
  if (parse_dib bmp).colors_used ≠ 0 then (parse_dib bmp).colors_used
  else if (parse_dib bmp).depth ≤ 8 then 2 ^ (parse_dib bmp).depth
  else 0

set_option maxRecDepth 4096 in
/-- C8: for every input passing the earlier header checks (length,
signature, size, offset range, DIB size, depth/compression legality,
truncation and size ceiling), validation requires the pixel-data offset
to be at least the end of the DIB header, and when it is strictly
greater the gap must equal exactly `4 * paletteEntryCount`; any mismatch
is rejected (the code signals `BadColorTable` as
`EFI_INVALID_PARAMETER`).  The final conjunct checks the spec's example:
an 8-bit image declaring 16 used colors with a 63-byte color-table span
is rejected. -/
theorem bmp_color_table_check (bmp : List Nat)
    (h1 : ¬ bmp.length < 54)
    (h2 : bmp.getD 0 0 = 66 ∧ bmp.getD 1 0 = 77)
    (h3 : readU32 bmp 2 = bmp.length)
    (h4 : ¬ readU32 bmp 2 < readU32 bmp 10)
    (h5 : ¬ (parse_dib bmp).size < 40)
    (h6 : ((parse_dib bmp).depth = 1 ∨ (parse_dib bmp).depth = 4 ∨
            (parse_dib bmp).depth = 8 ∨ (parse_dib bmp).depth = 24) ∧
            (parse_dib bmp).compression = 0 ∨
          ((parse_dib bmp).depth = 16 ∨ (parse_dib bmp).depth = 32) ∧
            ((parse_dib bmp).compression = 0 ∨ (parse_dib bmp).compression = 3))
    (h7 : ¬ (readU32 bmp 2 - readU32 bmp 10 <
            (parse_dib bmp).y * bmp_row_size (parse_dib bmp) % 2 ^ 64))
    (h8 : ¬ (bmp_row_size (parse_dib bmp) * (parse_dib bmp).y % 2 ^ 64 >
            64 * 1024 * 1024)) :
    (readU32 bmp 10 < 14 + (parse_dib bmp).size →
      bmp_parse_header bmp = .error .invalidParameter) ∧
    (14 + (parse_dib bmp).size < readU32 bmp 10 →
      readU32 bmp 10 - (14 + (parse_dib bmp).size) ≠ 4 * paletteEntryCount bmp →
      bmp_parse_header bmp = .error .invalidParameter) ∧
    bmp_parse_header bmpBadColorTable = .error .invalidParameter := by
  have hstep : bmp_parse_header bmp = bmp_parse_header_tail bmp (parse_dib bmp) := by
    unfold bmp_parse_header
    rw [if_neg h1, if_neg (not_not_intro h2), if_neg (by simp [h3]), if_neg h4]
    rcases h6 with ⟨hd, hc⟩ | ⟨hd, hc⟩
    · rw [if_neg h5, if_pos hd, if_neg (not_not_intro hc)]
    · have hnd : ¬ ((parse_dib bmp).depth = 1 ∨ (parse_dib bmp).depth = 4 ∨
          (parse_dib bmp).depth = 8 ∨ (parse_dib bmp).depth = 24) := by
        rcases hd with h | h <;> rw [h] <;> decide
      have hnc : ¬ ((parse_dib bmp).compression ≠ 0 ∧ (parse_dib bmp).compression ≠ 3) := by
        rcases hc with h | h <;> simp [h]
      rw [if_neg h5, if_neg hnd, if_pos hd, if_neg hnc]
  have hmc : (if (parse_dib bmp).colors_used ≠ 0 then (parse_dib bmp).colors_used
      else if (parse_dib bmp).depth = 1 ∨ (parse_dib bmp).depth = 4 ∨
        (parse_dib bmp).depth = 8 then 2 ^ (parse_dib bmp).depth
      else 0) = paletteEntryCount bmp := by
    unfold paletteEntryCount
    rcases h6 with ⟨hd, _⟩ | ⟨hd, _⟩
    · rcases hd with h | h | h | h <;> rw [h] <;> simp
    · rcases hd with h | h <;> rw [h] <;> simp
  rw [hstep]
  unfold bmp_parse_header_tail
  rw [if_neg h7, if_neg h8]
  refine ⟨?_, ?_, rfl⟩
  · intro hlt
    rw [if_pos hlt]
  · intro hgt hne
    rw [if_neg (by omega : ¬ readU32 bmp 10 < 14 + (parse_dib bmp).size), if_pos hgt]
    rw [hmc, if_pos hne]

/-- Witness for C8: the hypotheses of `bmp_color_table_check` are
satisfiable, at the concrete 8-bit image with colors-used 16 and a
63-byte color table, and the check indeed rejects it. -/
theorem bmp_color_table_check_witness :
    (¬ bmpBadColorTable.length < 54) ∧
    14 + (parse_dib bmpBadColorTable).size < readU32 bmpBadColorTable 10 ∧
    readU32 bmpBadColorTable 10 - (14 + (parse_dib bmpBadColorTable).size) ≠
      4 * paletteEntryCount bmpBadColorTable ∧
    bmp_parse_header bmpBadColorTable = .error .invalidParameter :=
  ⟨by decide, by decide, by decide,
    (bmp_color_table_check bmpBadColorTable (by decide) (by decide) (by decide)
      (by decide) (by decide) (by decide) (by decide) (by decide)).2.1
      (by decide) (by decide)⟩

/-- One output pixel (`EFI_GRAPHICS_OUTPUT_BLT_PIXEL`): bytes Blue, Green,
Red, Reserved in increasing address order. -/
structure Pixel where
  blue : Nat
  green : Nat
  red : Nat
  reserved : Nat
deriving DecidableEq

/-- View of a blt pixel as the little-endian `uint32_t` the 32-bit decode
path casts it to. -/
def packPixel (p : Pixel) : Nat :=
  p.blue + 256 * p.green + 65536 * p.red + 16777216 * p.reserved

/-- Inverse view: the four bytes of a 32-bit word as a blt pixel. -/
def unpackPixel (v : Nat) : Pixel :=
  ⟨v &&& 255, (v >>> 8) &&& 255, (v >>> 16) &&& 255, (v >>> 24) &&& 255⟩

/-- Truncation to `uint32_t`. -/
def u32 (n : Nat) : Nat := n % 4294967296

/-- Embedding of `pixel_blend` (splash.c lines 138-160): the packed
integer alpha blend.  Every `uint32_t` operation is wrapped in `u32`; the
C expression `src_rb - dst_rb` is unsigned wraparound subtraction, here
`(src_rb + (2 ^ 32 - dst_rb)) % 2 ^ 32`. -/
def pixel_blend (dst source : Nat) : Nat :=
  let alpha := source &&& 0xff
  let src := source >>> 8
  let src_rb := src &&& 0xff00ff
  let src_g := src &&& 0x00ff00
  let dst_rb := dst &&& 0xff00ff
  let dst_g := dst &&& 0x00ff00
  let rb := (u32 (u32 (u32 (u32 (src_rb + (4294967296 - dst_rb)) * alpha) + 0x800080) >>> 8
      + dst_rb)) &&& 0xff00ff
  let g := (u32 (u32 (u32 (u32 (src_g + (4294967296 - dst_g)) * alpha) + 0x008000) >>> 8
      + dst_g)) &&& 0x00ff00
  rb ||| g

/-- The blend formula as the spec words it for C2: on the red-blue pair
and the green channel independently,
`result = dest + ((src - dest) * alpha + rounding) / 256` with rounding
constants `0x800080` and `0x008000`, masked back into channel
boundaries; the subtraction and the intermediate sum are 32-bit
unsigned (wraparound) quantities as everywhere in the source. -/
def blend_spec (dst source : Nat) : Nat :=
  let alpha := source % 256
  let src := source / 256
  let src_rb := src &&& 0xff00ff
  let src_g := src &&& 0x00ff00
  let dst_rb := dst &&& 0xff00ff
  let dst_g := dst &&& 0x00ff00
  let rb := (dst_rb + ((src_rb + (4294967296 - dst_rb)) % 4294967296 * alpha
      + 0x800080) % 4294967296 / 256) &&& 0xff00ff
  let g := (dst_g + ((src_g + (4294967296 - dst_g)) % 4294967296 * alpha
      + 0x008000) % 4294967296 / 256) &&& 0x00ff00
  rb ||| g

/-- Masking with `0xff` is reduction mod 256. -/
lemma land_255 (x : Nat) : x &&& 255 = x % 256 := by
  have h := Nat.and_pow_two_sub_one_eq_mod x 8
  norm_num at h
  exact h

/-- Masking with a shifted mask is shifting, masking and shifting back. -/
lemma land_shift (x y n : Nat) : x &&& (y <<< n) = ((x >>> n) &&& y) <<< n := by
  apply Nat.eq_of_testBit_eq
  intro j
  simp only [Nat.testBit_and, Nat.testBit_shiftLeft, Nat.testBit_shiftRight]
  rcases le_or_lt n j with h | h
  · rw [Nat.add_sub_cancel' h]
    cases hx : x.testBit j <;> cases hy : y.testBit (j - n) <;> simp [h]
  · simp [Nat.not_le.mpr h]

/-- Closed form of the red-blue channel-pair mask. -/
lemma land_ff00ff (x : Nat) : x &&& 16711935 = x % 256 + x / 65536 % 256 * 65536 := by
  have hm : (16711935 : Nat) = 255 ||| 255 <<< 16 := by decide
  have h1 : x &&& 255 <<< 16 = x / 65536 % 256 * 65536 := by
    rw [land_shift, land_255, Nat.shiftRight_eq_div_pow, Nat.shiftLeft_eq]
  rw [hm, Nat.and_or_distrib_left, land_255, h1]
  have h2 : x / 65536 % 256 * 65536 = 2 ^ 16 * (x / 65536 % 256) := by ring
  rw [Nat.or_comm, h2, ← Nat.mul_add_lt_is_or (show x % 256 < 2 ^ 16 by omega)]
  omega

/-- Closed form of the green channel mask. -/
lemma land_ff00 (x : Nat) : x &&& 65280 = x / 256 % 256 * 256 := by
  have hm : (65280 : Nat) = 255 <<< 8 := by decide
  rw [hm, land_shift, land_255, Nat.shiftRight_eq_div_pow, Nat.shiftLeft_eq]

/-- Bitwise or of byte components in disjoint positions is their sum. -/
lemma lor_bytes (a0 a1 a2 : Nat) (h0 : a0 < 256) (h1 : a1 < 256) :
    (a0 + a2 * 65536) ||| a1 * 256 = a0 + a1 * 256 + a2 * 65536 := by
  have e1 : a0 + a2 * 65536 = 2 ^ 16 * a2 ||| a0 := by
    rw [← Nat.mul_add_lt_is_or (show a0 < 2 ^ 16 by omega)]
    ring
  have ha : a1 * 256 = 2 ^ 8 * a1 := by ring
  have e2 : a0 ||| a1 * 256 = 2 ^ 8 * a1 + a0 := by
    rw [Nat.or_comm, ha, ← Nat.mul_add_lt_is_or (show a0 < 2 ^ 8 by omega)]
  rw [e1, Nat.or_assoc, e2]
  rw [← Nat.mul_add_lt_is_or (show 2 ^ 8 * a1 + a0 < 2 ^ 16 by omega)]
  ring

/-- Normalization step relating the order of operations in the source
(`shift then add dest, all mod 2^32`) to the spec wording (`dest plus
quotient`): sound because the quotient is below `2^24` and the masked
destination group below `2^24`, so no wraparound occurs. -/
lemma blend_channel_norm (U a c d : Nat) (hd : d ≤ 16711935) :
    ((U * a + c) % 4294967296 / 256 + d) % 4294967296
      = d + (U % 4294967296 * a + c) % 4294967296 / 256 := by
  have h1 : (U % 4294967296 * a + c) % 4294967296 = (U * a + c) % 4294967296 := by
    conv_lhs => rw [Nat.add_mod, Nat.mod_mul_mod, ← Nat.add_mod]
  rw [h1]
  omega

/-- C2: `pixel_blend` computes, on the red-blue pair and the green
channel independently, exactly
`result = dest + ((src - dest) * alpha + rounding) / 256` with rounding
constants `0x800080` and `0x008000` masked back into channel boundaries
(`blend_spec`); and blending source `(R=255,G=0,B=0,A=128)` onto
destination `(R=0,G=0,B=255)` yields exactly the byte triple
`(R,G,B) = (128,0,128)`. -/
theorem pixel_blend_matches_spec (dst source : Nat) :
    pixel_blend dst source = blend_spec dst source ∧
    unpackPixel (pixel_blend (packPixel ⟨255, 0, 0, 0⟩) 0xff000080) =
      ⟨128, 0, 128, 0⟩ := by
  constructor
  · unfold pixel_blend blend_spec u32
    have hA : source &&& 255 = source % 256 := land_255 source
    simp only [Nat.shiftRight_eq_div_pow, hA]
    norm_num
    rw [blend_channel_norm _ _ _ _ Nat.and_le_right,
      blend_channel_norm _ _ _ _ (le_trans Nat.and_le_right (by norm_num))]
  · decide

/-- Alpha 0 leaves the packed destination word unchanged in its low 24
bits and clears the top byte. -/
lemma pixel_blend_alpha_zero_core (dst source : Nat) (h : source &&& 255 = 0) :
    pixel_blend dst source = dst % 16777216 := by
  unfold pixel_blend u32
  simp only [h, Nat.mul_zero, Nat.zero_mod, Nat.zero_add]
  norm_num [Nat.shiftRight_eq_div_pow]
  rw [land_ff00ff dst, land_ff00 dst]
  have e1 : (32768 + (dst % 256 + dst / 65536 % 256 * 65536)) % 4294967296
      = 32768 + dst % 256 + dst / 65536 % 256 * 65536 := by omega
  have e2 : (128 + dst / 256 % 256 * 256) % 4294967296 = 128 + dst / 256 % 256 * 256 := by
    omega
  rw [e1, e2, land_ff00ff, land_ff00]
  rw [lor_bytes _ _ _ (Nat.mod_lt _ (by norm_num)) (Nat.mod_lt _ (by norm_num))]
  omega

/-- C10: blending any source word whose alpha byte is 0 onto any
destination pixel leaves the destination's blue, green and red bytes
unchanged and sets the fourth (reserved) byte to 0. -/
theorem pixel_blend_alpha_zero (dst source : Nat) (h : source &&& 255 = 0) :
    unpackPixel (pixel_blend dst source) =
      { blue := (unpackPixel dst).blue
        green := (unpackPixel dst).green
        red := (unpackPixel dst).red
        reserved := 0 } := by
  rw [pixel_blend_alpha_zero_core dst source h]
  unfold unpackPixel
  simp only [Pixel.mk.injEq, land_255, Nat.shiftRight_eq_div_pow]
  norm_num
  omega

/-- Witness for C10 at a concrete destination and a concrete
zero-alpha source word. -/
theorem pixel_blend_alpha_zero_witness :
    (0xaabbcc00 &&& 255 = 0) ∧
    unpackPixel (pixel_blend 0x11223344 0xaabbcc00) =
      { blue := (unpackPixel 0x11223344).blue
        green := (unpackPixel 0x11223344).green
        red := (unpackPixel 0x11223344).red
        reserved := 0 } :=
  ⟨by decide, pixel_blend_alpha_zero 0x11223344 0xaabbcc00 (by decide)⟩

/-- State of the pixel converter: the input cursor (absolute byte offset
into the file), the output blt buffer (flat, row-major), the ordered log
of output indices written, and the ordered log of input byte offsets
dereferenced. -/
structure ConvState where
  inPos : Nat
  buf : Nat → Pixel
  writes : List Nat
  reads : List Nat

/-- Pointwise buffer update. -/
def updateBuf (f : Nat → Pixel) (i : Nat) (p : Pixel) : Nat → Pixel :=
  fun j => if j = i then p else f j

/-- Write the three color channels of output pixel `i` (the Reserved
byte is not assigned by the 1/4/8/16/24-bit paths). -/
def setRGB (s : ConvState) (i r g b : Nat) : ConvState :=
  { s with
    buf := updateBuf s.buf i { s.buf i with red := r, green := g, blue := b }
    writes := s.writes ++ [i] }

/-- Log input-file byte offsets dereferenced by the converter. -/
def logReads (s : ConvState) (offs : List Nat) : ConvState :=
  { s with reads := s.reads ++ offs }

/-- Inner loop of the 1-bit case (splash.c lines 185-191):
`for (UINTN i = 0; i < 8 && x < dib->x; i++)`.  The counter `j`
counts the remaining inner iterations (`j = 8 - i`), so the shift
amount `7 - i` is `j - 1`.  Returns the final `x` together with the
state; `in` is not advanced here (the C code rereads `*in`). -/
def row1_inner (bmp : List Nat) (w mapOff outBase : Nat) :
    Nat → Nat → ConvState → Nat × ConvState
  | 0, x, s => (x, s)
  | j + 1, x, s =>
    if x < w then
      let idx := (bmp.getD s.inPos 0 >>> j) &&& 1
      let s1 := logReads s
        [s.inPos, mapOff + 4 * idx + 2, mapOff + 4 * idx + 1, mapOff + 4 * idx]
      let s2 := setRGB s1 (outBase + x) (bmp.getD (mapOff + 4 * idx + 2) 0)
        (bmp.getD (mapOff + 4 * idx + 1) 0) (bmp.getD (mapOff + 4 * idx) 0)
      row1_inner bmp w mapOff outBase j (x + 1) s2
    else (x, s)

/-- One source row of `bmp_to_blt` (splash.c lines 182-247): the loop
`for (UINTN x = 0; x < dib->x; x++, in++, out++)` with the per-depth
`switch` in its body.  `fuel` bounds the number of iterations (every
iteration advances `x` by at least one, so `dib.x` suffices); `out` is
`outBase + x` throughout, since every `out++` in the source is paired
with an `x++`.  In the 1-bit case the source's trailing `out--; x--`
cancels against the `x++, out++` of the loop header, and in the 4-bit
case the conditional second nibble likewise folds into the loop
increment; the net cursor arithmetic is modelled exactly. -/
def convert_row (bmp : List Nat) (dib : BmpDib) (mapOff outBase : Nat) :
    Nat → Nat → ConvState → ConvState
  | 0, _, s => s
  | fuel + 1, x, s =>
    if x < dib.x then
      if dib.depth = 1 then
        let r := row1_inner bmp dib.x mapOff outBase 8 x s
        convert_row bmp dib mapOff outBase fuel r.1 { r.2 with inPos := r.2.inPos + 1 }
      else if dib.depth = 4 then
        let b := bmp.getD s.inPos 0
        let hi := b >>> 4
        let s1 := setRGB (logReads s
            [s.inPos, mapOff + 4 * hi + 2, mapOff + 4 * hi + 1, mapOff + 4 * hi])
          (outBase + x) (bmp.getD (mapOff + 4 * hi + 2) 0)
          (bmp.getD (mapOff + 4 * hi + 1) 0) (bmp.getD (mapOff + 4 * hi) 0)
        if x < dib.x - 1 then
          let lo := b &&& 15
          let s2 := setRGB (logReads s1
              [s.inPos, mapOff + 4 * lo + 2, mapOff + 4 * lo + 1, mapOff + 4 * lo])
            (outBase + x + 1) (bmp.getD (mapOff + 4 * lo + 2) 0)
            (bmp.getD (mapOff + 4 * lo + 1) 0) (bmp.getD (mapOff + 4 * lo) 0)
          convert_row bmp dib mapOff outBase fuel (x + 2) { s2 with inPos := s2.inPos + 1 }
        else
          convert_row bmp dib mapOff outBase fuel (x + 1) { s1 with inPos := s1.inPos + 1 }
      else if dib.depth = 8 then
        let idx := bmp.getD s.inPos 0
        let s1 := setRGB (logReads s
            [s.inPos, mapOff + 4 * idx + 2, mapOff + 4 * idx + 1, mapOff + 4 * idx])
          (outBase + x) (bmp.getD (mapOff + 4 * idx + 2) 0)
          (bmp.getD (mapOff + 4 * idx + 1) 0) (bmp.getD (mapOff + 4 * idx) 0)
        convert_row bmp dib mapOff outBase fuel (x + 1) { s1 with inPos := s1.inPos + 1 }
      else if dib.depth = 16 then
        let word := readU16 bmp s.inPos
        let s1 := setRGB (logReads s [s.inPos, s.inPos + 1]) (outBase + x)
          ((word &&& 0x7c00) >>> 7) ((word &&& 0x3e0) >>> 2) ((word &&& 0x1f) <<< 3)
        convert_row bmp dib mapOff outBase fuel (x + 1) { s1 with inPos := s1.inPos + 2 }
      else if dib.depth = 24 then
        let s1 := setRGB (logReads s [s.inPos, s.inPos + 1, s.inPos + 2]) (outBase + x)
          (bmp.getD (s.inPos + 2) 0) (bmp.getD (s.inPos + 1) 0) (bmp.getD s.inPos 0)
        convert_row bmp dib mapOff outBase fuel (x + 1) { s1 with inPos := s1.inPos + 3 }
      else if dib.depth = 32 then
        let word := readU32 bmp s.inPos
        let old := s.buf (outBase + x)
        let s1 := logReads s [s.inPos, s.inPos + 1, s.inPos + 2, s.inPos + 3]
        let s2 := { s1 with
          buf := updateBuf s1.buf (outBase + x)
            (unpackPixel (pixel_blend (packPixel old) word))
          writes := s1.writes ++ [outBase + x] }
        convert_row bmp dib mapOff outBase fuel (x + 1) { s2 with inPos := s2.inPos + 4 }
      else
        convert_row bmp dib mapOff outBase fuel (x + 1) { s with inPos := s.inPos + 1 }
    else s

/-- Row loop of `bmp_to_blt` (splash.c lines 177-252): processes source
rows bottom-up, writing source row `y` at output row base
`(dib.y - y - 1) * dib.x`, then pads the cumulative cursor offset
`in - pixmap` up to a 32-bit boundary with
`((row_size + 3) & ~(UINTN)3) - row_size` (the `~3` mask on 64-bit
`UINTN` is `2 ^ 64 - 4`). -/
def bmp_to_blt_loop (bmp : List Nat) (dib : BmpDib) (mapOff pixOff : Nat) :
    Nat → Nat → ConvState → ConvState
  | 0, _, s => s
  | fuel + 1, y, s =>
    if y < dib.y then
      let outBase := (dib.y - y - 1) * dib.x
      let s1 := convert_row bmp dib mapOff outBase dib.x 0 s
      let row_size := s1.inPos - pixOff
      let s2 := { s1 with inPos := s1.inPos + (((row_size + 3) &&& (2 ^ 64 - 4)) - row_size) }
      bmp_to_blt_loop bmp dib mapOff pixOff fuel (y + 1) s2
    else s

/-- Converter start state: cursor at the pixel data, given initial
buffer contents, empty logs. -/
def initConvState (pixOff : Nat) (buf0 : Nat → Pixel) : ConvState :=
  ⟨pixOff, buf0, [], []⟩

/-- Embedding of `bmp_to_blt` (splash.c lines 162-255). -/
def bmp_to_blt (bmp : List Nat) (dib : BmpDib) (mapOff pixOff : Nat)
    (buf0 : Nat → Pixel) : ConvState :=
  bmp_to_blt_loop bmp dib mapOff pixOff dib.y 0 (initConvState pixOff buf0)

/-- C1: the 62-byte file `bmpPaletteTrap` is accepted by the header
validator, yet converting it dereferences input byte offsets 1074-1076
(palette entry 255 of a 1-entry color table), far beyond the 62-byte
input: the converter does read outside `[0, inputLength)` and no
validation failure occurs for out-of-range palette indices. -/
theorem bmp_to_blt_reads_past_input :
    bmp_parse_header bmpPaletteTrap = .ok ⟨⟨40, 1, 1, 8, 0, 1⟩, 54, 58⟩ ∧
    bmpPaletteTrap.length = 62 ∧
    (bmp_to_blt bmpPaletteTrap ⟨40, 1, 1, 8, 0, 1⟩ 54 58 (fun _ => ⟨0, 0, 0, 0⟩)).reads
      = [58, 1076, 1075, 1074] ∧
    1074 ∈ (bmp_to_blt bmpPaletteTrap ⟨40, 1, 1, 8, 0, 1⟩ 54 58
      (fun _ => ⟨0, 0, 0, 0⟩)).reads ∧
    bmpPaletteTrap.length ≤ 1074 :=
  ⟨rfl, rfl, rfl, by decide, by decide⟩

/-- The inner 1-bit loop advances `x` to `min (x + 8) w`. -/
lemma row1_inner_fst (bmp : List Nat) (w mapOff outBase : Nat) :
    ∀ j x s, x ≤ w → (row1_inner bmp w mapOff outBase j x s).1 = min (x + j) w := by
  intro j
  induction j with
  | zero =>
    intro x s hx
    simp [row1_inner]
    omega
  | succ j ih =>
    intro x s hx
    rw [row1_inner]
    by_cases h : x < w
    · rw [if_pos h]
      rw [ih (x + 1) _ (by omega)]
      omega
    · rw [if_neg h]
      simp
      omega

/-- The inner 1-bit loop does not advance the input cursor. -/
lemma row1_inner_inPos (bmp : List Nat) (w mapOff outBase : Nat) :
    ∀ j x s, (row1_inner bmp w mapOff outBase j x s).2.inPos = s.inPos := by
  intro j
  induction j with
  | zero => intro x s; simp [row1_inner]
  | succ j ih =>
    intro x s
    rw [row1_inner]
    by_cases h : x < w
    · rw [if_pos h]
      rw [ih]
      simp [setRGB, logReads]
    · rw [if_neg h]

/-- The inner 1-bit loop writes exactly the output pixels from `x` up to
`min (x + 8) w`, in order. -/
lemma row1_inner_writes (bmp : List Nat) (w mapOff outBase : Nat) :
    ∀ j x s, x ≤ w →
      (row1_inner bmp w mapOff outBase j x s).2.writes
        = s.writes ++ (List.range (min (x + j) w - x)).map (fun t => outBase + (x + t)) := by
  intro j
  induction j with
  | zero =>
    intro x s hx
    simp [row1_inner]
  | succ j ih =>
    intro x s hx
    rw [row1_inner]
    by_cases h : x < w
    · rw [if_pos h]
      rw [ih (x + 1) _ (by omega)]
      have hn : min (x + (j + 1)) w - x = (min (x + 1 + j) w - (x + 1)) + 1 := by omega
      rw [hn, List.range_succ_eq_map]
      simp only [setRGB, logReads, List.map_cons, List.map_map]
      have hf : ((fun t => outBase + (x + t)) ∘ Nat.succ) = fun t => outBase + (x + 1 + t) := by
        funext t
        simp [Function.comp]
        omega
      rw [hf]
      simp [List.append_assoc]
    · rw [if_neg h]
      simp
      omega

/-- Peel the first index off a contiguous block of output indices. -/
lemma range_map_shift (base x n : Nat) :
    (List.range (n + 1)).map (fun t => base + (x + t))
      = (base + x) :: (List.range n).map (fun t => base + (x + 1 + t)) := by
  rw [List.range_succ_eq_map]
  simp only [List.map_cons, List.map_map, Nat.add_zero]
  have hf : ((fun t => base + (x + t)) ∘ Nat.succ) = fun t => base + (x + 1 + t) := by
    funext t
    simp [Function.comp]
    omega
  rw [hf]

/-- Concatenate two adjacent contiguous blocks of output indices. -/
lemma range_map_append (base x a b : Nat) :
    (List.range a).map (fun t => base + (x + t))
        ++ (List.range b).map (fun t => base + (x + a + t))
      = (List.range (a + b)).map (fun t => base + (x + t)) := by
  rw [List.range_add, List.map_append, List.map_map]
  have hf : ((fun t => base + (x + t)) ∘ fun u => a + u) = fun t => base + (x + a + t) := by
    funext t
    simp [Function.comp]
    omega
  rw [hf]

/-- Row conversion at depths 8/16/24/32: each loop iteration emits one
pixel and consumes `depth / 8` input bytes, so a row of `dib.x - x`
remaining pixels consumes `depth / 8 * (dib.x - x)` bytes and writes
exactly the output indices `outBase + x, ..., outBase + dib.x - 1` in
order. -/
lemma convert_row_dense (bmp : List Nat) (dib : BmpDib) (mapOff outBase : Nat)
    (hd : dib.depth = 8 ∨ dib.depth = 16 ∨ dib.depth = 24 ∨ dib.depth = 32) :
    ∀ fuel x s, dib.x - x ≤ fuel →
      (convert_row bmp dib mapOff outBase fuel x s).inPos
          = s.inPos + dib.depth / 8 * (dib.x - x) ∧
      (convert_row bmp dib mapOff outBase fuel x s).writes
          = s.writes ++ (List.range (dib.x - x)).map (fun t => outBase + (x + t)) := by
  intro fuel
  induction fuel with
  | zero =>
    intro x s hf
    have hx : dib.x - x = 0 := by omega
    simp [convert_row, hx]
  | succ fuel ih =>
    intro x s hf
    rw [convert_row]
    by_cases h : x < dib.x
    · rw [if_pos h]
      have hn : dib.x - x = (dib.x - (x + 1)) + 1 := by omega
      rcases hd with h8 | h16 | h24 | h32
      · rw [if_neg (show ¬ dib.depth = 1 by omega), if_neg (show ¬ dib.depth = 4 by omega),
          if_pos h8]
        dsimp only [setRGB, logReads]
        refine ⟨?_, ?_⟩
        · rw [(ih (x + 1) _ (by omega)).1]
          dsimp
          simp only [h8]
          omega
        · rw [(ih (x + 1) _ (by omega)).2]
          dsimp
          rw [hn, range_map_shift]
          simp
      · rw [if_neg (show ¬ dib.depth = 1 by omega), if_neg (show ¬ dib.depth = 4 by omega),
          if_neg (show ¬ dib.depth = 8 by omega), if_pos h16]
        dsimp only [setRGB, logReads]
        refine ⟨?_, ?_⟩
        · rw [(ih (x + 1) _ (by omega)).1]
          dsimp
          simp only [h16]
          omega
        · rw [(ih (x + 1) _ (by omega)).2]
          dsimp
          rw [hn, range_map_shift]
          simp
      · rw [if_neg (show ¬ dib.depth = 1 by omega), if_neg (show ¬ dib.depth = 4 by omega),
          if_neg (show ¬ dib.depth = 8 by omega), if_neg (show ¬ dib.depth = 16 by omega),
          if_pos h24]
        dsimp only [setRGB, logReads]
        refine ⟨?_, ?_⟩
        · rw [(ih (x + 1) _ (by omega)).1]
          dsimp
          simp only [h24]
          omega
        · rw [(ih (x + 1) _ (by omega)).2]
          dsimp
          rw [hn, range_map_shift]
          simp
      · rw [if_neg (show ¬ dib.depth = 1 by omega), if_neg (show ¬ dib.depth = 4 by omega),
          if_neg (show ¬ dib.depth = 8 by omega), if_neg (show ¬ dib.depth = 16 by omega),
          if_neg (show ¬ dib.depth = 24 by omega), if_pos h32]
        dsimp only [logReads]
        refine ⟨?_, ?_⟩
        · rw [(ih (x + 1) _ (by omega)).1]
          dsimp
          simp only [h32]
          omega
        · rw [(ih (x + 1) _ (by omega)).2]
          dsimp
          rw [hn, range_map_shift]
          simp
    · rw [if_neg h]
      have hx : dib.x - x = 0 := by omega
      simp [hx]

/-- Row conversion at depth 4: one input byte per iteration carries two
pixels (one for the last odd pixel), so the row consumes
`(dib.x - x + 1) / 2` bytes and writes exactly the remaining output
indices in order, including when the width is odd. -/
lemma convert_row_d4 (bmp : List Nat) (dib : BmpDib) (mapOff outBase : Nat)
    (hd : dib.depth = 4) :
    ∀ fuel x s, dib.x - x ≤ fuel →
      (convert_row bmp dib mapOff outBase fuel x s).inPos
          = s.inPos + (dib.x - x + 1) / 2 ∧
      (convert_row bmp dib mapOff outBase fuel x s).writes
          = s.writes ++ (List.range (dib.x - x)).map (fun t => outBase + (x + t)) := by
  intro fuel
  induction fuel with
  | zero =>
    intro x s hf
    have hx : dib.x - x = 0 := by omega
    simp [convert_row, hx]
  | succ fuel ih =>
    intro x s hf
    rw [convert_row]
    by_cases h : x < dib.x
    · rw [if_pos h, if_neg (show ¬ dib.depth = 1 by omega), if_pos hd]
      dsimp only [setRGB, logReads]
      by_cases h2 : x < dib.x - 1
      · rw [if_pos h2]
        refine ⟨?_, ?_⟩
        · rw [(ih (x + 2) _ (by omega)).1]
          dsimp
          omega
        · rw [(ih (x + 2) _ (by omega)).2]
          dsimp
          have hn : dib.x - x = (dib.x - (x + 2)) + 1 + 1 := by omega
          rw [hn, range_map_shift, range_map_shift]
          simp
          omega
      · rw [if_neg h2]
        refine ⟨?_, ?_⟩
        · rw [(ih (x + 1) _ (by omega)).1]
          dsimp
          omega
        · rw [(ih (x + 1) _ (by omega)).2]
          dsimp
          have hn : dib.x - x = (dib.x - (x + 1)) + 1 := by omega
          rw [hn, range_map_shift]
          simp
    · rw [if_neg h]
      have hx : dib.x - x = 0 := by omega
      simp [hx]

/-- Row conversion at depth 1: one input byte per iteration carries up to
eight pixels, so the row consumes `(dib.x - x + 7) / 8` bytes and writes
exactly the remaining output indices in order, including when the
width is not a multiple of 8. -/
lemma convert_row_d1 (bmp : List Nat) (dib : BmpDib) (mapOff outBase : Nat)
    (hd : dib.depth = 1) :
    ∀ fuel x s, dib.x - x ≤ fuel →
      (convert_row bmp dib mapOff outBase fuel x s).inPos
          = s.inPos + (dib.x - x + 7) / 8 ∧
      (convert_row bmp dib mapOff outBase fuel x s).writes
          = s.writes ++ (List.range (dib.x - x)).map (fun t => outBase + (x + t)) := by
  intro fuel
  induction fuel with
  | zero =>
    intro x s hf
    have hx : dib.x - x = 0 := by omega
    simp [convert_row, hx]
  | succ fuel ih =>
    intro x s hf
    rw [convert_row]
    by_cases h : x < dib.x
    · rw [if_pos h, if_pos hd]
      have hx1 := row1_inner_fst bmp dib.x mapOff outBase 8 x s (le_of_lt h)
      have hx2 := row1_inner_inPos bmp dib.x mapOff outBase 8 x s
      have hx3 := row1_inner_writes bmp dib.x mapOff outBase 8 x s (le_of_lt h)
      dsimp only
      rw [hx1]
      obtain ⟨ih1, ih2⟩ := ih (min (x + 8) dib.x) _ (by omega)
      refine ⟨?_, ?_⟩
      · rw [ih1]
        dsimp
        rw [hx2]
        omega
      · rw [ih2]
        dsimp
        rw [hx3, List.append_assoc]
        have hmb : (fun t => outBase + (min (x + 8) dib.x + t))
            = fun t => outBase + (x + (min (x + 8) dib.x - x) + t) := by
          funext t
          omega
        rw [hmb, range_map_append]
        have hab : min (x + 8) dib.x - x + (dib.x - min (x + 8) dib.x) = dib.x - x := by
          omega
        rw [hab]
    · rw [if_neg h]
      have hx : dib.x - x = 0 := by omega
      simp [hx]

/-- The padding mask `~(UINTN)3`: `n & ~3` clears the two low bits. -/
lemma land_align4 (n : Nat) : n &&& (2 ^ 64 - 4) = n / 4 % 2 ^ 62 * 4 := by
  have hm : (2 ^ 64 - 4 : Nat) = (2 ^ 62 - 1) <<< 2 := by decide
  rw [hm, land_shift, Nat.and_pow_two_sub_one_eq_mod, Nat.shiftRight_eq_div_pow,
    Nat.shiftLeft_eq]

/-- Invariant of the row loop: if one row consumes `rowBytes` bytes and
the 4-byte-padded stride of `rowBytes` is `bmp_row_size dib`, then after
`fuel` rows the cursor sits exactly `fuel` strides past the pixel data
start, and the writes are exactly the corresponding output rows, each in
order. -/
lemma bmp_to_blt_loop_spec (bmp : List Nat) (dib : BmpDib) (mapOff pixOff rowBytes : Nat)
    (hrow : ∀ outBase s, (convert_row bmp dib mapOff outBase dib.x 0 s).inPos
          = s.inPos + rowBytes ∧
        (convert_row bmp dib mapOff outBase dib.x 0 s).writes
          = s.writes ++ (List.range dib.x).map (fun t => outBase + t))
    (hstride : (rowBytes + 3) / 4 * 4 = bmp_row_size dib)
    (hbound : dib.y * bmp_row_size dib + 3 < 2 ^ 64) :
    ∀ fuel y s, y + fuel ≤ dib.y → s.inPos = pixOff + y * bmp_row_size dib →
      (bmp_to_blt_loop bmp dib mapOff pixOff fuel y s).inPos
          = pixOff + (y + fuel) * bmp_row_size dib ∧
      (bmp_to_blt_loop bmp dib mapOff pixOff fuel y s).writes
          = s.writes ++ (List.range fuel).flatMap
              (fun r => (List.range dib.x).map
                (fun t => (dib.y - (y + r) - 1) * dib.x + t)) := by
  intro fuel
  induction fuel with
  | zero =>
    intro y s hy hs
    simp [bmp_to_blt_loop, hs]
  | succ fuel ih =>
    intro y s hy hs
    have hylt : y < dib.y := by omega
    rw [bmp_to_blt_loop, if_pos hylt]
    dsimp only
    obtain ⟨hr1, hr2⟩ := hrow ((dib.y - y - 1) * dib.x) s
    have hstep : ∀ u : Nat, u = y * bmp_row_size dib →
        pixOff + u + rowBytes +
            ((((pixOff + u + rowBytes - pixOff + 3) &&& (2 ^ 64 - 4))
              - (pixOff + u + rowBytes - pixOff)))
          = pixOff + (y + 1) * bmp_row_size dib := by
      intro u hu
      have h4 : u % 4 = 0 := by
        have : 4 ∣ bmp_row_size dib := by omega
        obtain ⟨q, hq⟩ := this
        rw [hu, hq]
        have : y * (4 * q) = 4 * (y * q) := by ring
        rw [this]
        omega
      have hle : u + rowBytes ≤ dib.y * bmp_row_size dib := by
        have h1 : (y + 1) * bmp_row_size dib ≤ dib.y * bmp_row_size dib :=
          Nat.mul_le_mul_right _ (by omega)
        have h2 : (y + 1) * bmp_row_size dib = y * bmp_row_size dib + bmp_row_size dib :=
          Nat.succ_mul _ _
        omega
      have hsm : (y + 1) * bmp_row_size dib = y * bmp_row_size dib + bmp_row_size dib :=
        Nat.succ_mul _ _
      rw [land_align4, hsm, ← hu]
      omega
    have hs2 : (convert_row bmp dib mapOff ((dib.y - y - 1) * dib.x) dib.x 0 s).inPos +
        ((((convert_row bmp dib mapOff ((dib.y - y - 1) * dib.x) dib.x 0 s).inPos - pixOff + 3)
            &&& (2 ^ 64 - 4))
          - ((convert_row bmp dib mapOff ((dib.y - y - 1) * dib.x) dib.x 0 s).inPos - pixOff))
        = pixOff + (y + 1) * bmp_row_size dib := by
      rw [hr1, hs]
      exact hstep (y * bmp_row_size dib) rfl
    obtain ⟨ih1, ih2⟩ := ih (y + 1)
      { (convert_row bmp dib mapOff ((dib.y - y - 1) * dib.x) dib.x 0 s) with
        inPos := (convert_row bmp dib mapOff ((dib.y - y - 1) * dib.x) dib.x 0 s).inPos +
          ((((convert_row bmp dib mapOff ((dib.y - y - 1) * dib.x) dib.x 0 s).inPos - pixOff + 3)
              &&& (2 ^ 64 - 4))
            - ((convert_row bmp dib mapOff ((dib.y - y - 1) * dib.x) dib.x 0 s).inPos - pixOff)) }
      (by omega) (by dsimp; exact hs2)
    refine ⟨?_, ?_⟩
    · rw [ih1]
      have : y + 1 + fuel = y + (fuel + 1) := by omega
      rw [this]
    · rw [ih2]
      dsimp
      rw [hr2]
      rw [List.range_succ_eq_map, List.flatMap_cons, List.flatMap_map, List.append_assoc]
      have hf0 : (fun t => (dib.y - (y + 0) - 1) * dib.x + t)
          = fun t => (dib.y - y - 1) * dib.x + t := by
        funext t
        rw [Nat.add_zero]
      have hfs : (fun a : Nat => List.map (fun t => (dib.y - (y + a.succ) - 1) * dib.x + t)
            (List.range dib.x))
          = fun r : Nat => List.map (fun t => (dib.y - (y + 1 + r) - 1) * dib.x + t)
            (List.range dib.x) := by
        funext a
        have h' : y + a.succ = y + 1 + a := by omega
        rw [h']
      rw [hf0, hfs]

/-- C6: for every supported depth (1, 4, 8, 16, 24 or 32, widths not a
multiple of 8 or 2 included), after processing `k` source rows the read
cursor has advanced by exactly `k` times the padded stride
`bmp_row_size dib = ceil(depth * width / 32) * 4`, so each source row
advances it by exactly one stride from the offset where that row began;
and source row `r` fills exactly output row `dib.y - 1 - r` (0 = top),
equivalently output row `y` is filled from source row `height - 1 - y`. -/
theorem bmp_to_blt_row_order (bmp : List Nat) (dib : BmpDib) (mapOff pixOff : Nat)
    (buf0 : Nat → Pixel) (k : Nat)
    (hd : dib.depth = 1 ∨ dib.depth = 4 ∨ dib.depth = 8 ∨ dib.depth = 16 ∨
      dib.depth = 24 ∨ dib.depth = 32)
    (hk : k ≤ dib.y)
    (hbound : dib.y * bmp_row_size dib + 3 < 2 ^ 64) :
    (bmp_to_blt_loop bmp dib mapOff pixOff k 0 (initConvState pixOff buf0)).inPos
        = pixOff + k * bmp_row_size dib ∧
    (bmp_to_blt_loop bmp dib mapOff pixOff k 0 (initConvState pixOff buf0)).writes
        = (List.range k).flatMap
            (fun r => (List.range dib.x).map (fun t => (dib.y - r - 1) * dib.x + t)) ∧
    (bmp_to_blt bmp dib mapOff pixOff buf0).inPos = pixOff + dib.y * bmp_row_size dib := by
  obtain ⟨rowBytes, hrow, hstride⟩ : ∃ rb : Nat,
      (∀ outBase s, (convert_row bmp dib mapOff outBase dib.x 0 s).inPos
            = s.inPos + rb ∧
          (convert_row bmp dib mapOff outBase dib.x 0 s).writes
            = s.writes ++ (List.range dib.x).map (fun t => outBase + t)) ∧
      (rb + 3) / 4 * 4 = bmp_row_size dib := by
    rcases hd with h | h | h | h | h | h
    · refine ⟨(dib.x + 7) / 8, fun outBase s => ?_, ?_⟩
      · obtain ⟨h1, h2⟩ := convert_row_d1 bmp dib mapOff outBase h dib.x 0 s (by omega)
        constructor
        · rw [h1]
          omega
        · rw [h2]
          simp
      · unfold bmp_row_size
        rw [h]
        omega
    · refine ⟨(dib.x + 1) / 2, fun outBase s => ?_, ?_⟩
      · obtain ⟨h1, h2⟩ := convert_row_d4 bmp dib mapOff outBase h dib.x 0 s (by omega)
        constructor
        · rw [h1]
          omega
        · rw [h2]
          simp
      · unfold bmp_row_size
        rw [h]
        omega
    · refine ⟨dib.x, fun outBase s => ?_, ?_⟩
      · obtain ⟨h1, h2⟩ := convert_row_dense bmp dib mapOff outBase (by omega) dib.x 0 s
          (by omega)
        constructor
        · rw [h1, h]
          omega
        · rw [h2]
          simp
      · unfold bmp_row_size
        rw [h]
        omega
    · refine ⟨2 * dib.x, fun outBase s => ?_, ?_⟩
      · obtain ⟨h1, h2⟩ := convert_row_dense bmp dib mapOff outBase (by omega) dib.x 0 s
          (by omega)
        constructor
        · rw [h1, h]
          omega
        · rw [h2]
          simp
      · unfold bmp_row_size
        rw [h]
        omega
    · refine ⟨3 * dib.x, fun outBase s => ?_, ?_⟩
      · obtain ⟨h1, h2⟩ := convert_row_dense bmp dib mapOff outBase (by omega) dib.x 0 s
          (by omega)
        constructor
        · rw [h1, h]
          omega
        · rw [h2]
          simp
      · unfold bmp_row_size
        rw [h]
        omega
    · refine ⟨4 * dib.x, fun outBase s => ?_, ?_⟩
      · obtain ⟨h1, h2⟩ := convert_row_dense bmp dib mapOff outBase (by omega) dib.x 0 s
          (by omega)
        constructor
        · rw [h1, h]
          omega
        · rw [h2]
          simp
      · unfold bmp_row_size
        rw [h]
        omega
  have hspec := bmp_to_blt_loop_spec bmp dib mapOff pixOff rowBytes hrow hstride hbound
  obtain ⟨l1, l2⟩ := hspec k 0 (initConvState pixOff buf0) (by omega)
    (by simp [initConvState])
  obtain ⟨m1, _⟩ := hspec dib.y 0 (initConvState pixOff buf0) (by omega)
    (by simp [initConvState])
  refine ⟨?_, ?_, ?_⟩
  · rw [l1]
    norm_num
  · rw [l2]
    simp [initConvState]
  · unfold bmp_to_blt
    rw [m1]
    norm_num

/-- Depth-16 conversion never touches output pixels below `outBase + x`. -/
lemma convert_row_16_frame (bmp : List Nat) (dib : BmpDib) (mapOff outBase : Nat)
    (hd : dib.depth = 16) :
    ∀ fuel x s j, j < outBase + x →
      (convert_row bmp dib mapOff outBase fuel x s).buf j = s.buf j := by
  intro fuel
  induction fuel with
  | zero =>
    intro x s j hj
    simp [convert_row]
  | succ fuel ih =>
    intro x s j hj
    rw [convert_row]
    by_cases h : x < dib.x
    · rw [if_pos h, if_neg (by omega), if_neg (by omega), if_neg (by omega), if_pos hd]
      dsimp only [setRGB, logReads]
      rw [ih (x + 1) _ j (by omega)]
      dsimp [updateBuf]
      rw [if_neg (by omega)]
    · rw [if_neg h]

/-- C5: at depth 16, the pixel emitted for each source pixel `t` of a row
started at cursor `s.inPos` is computed from the little-endian 16-bit
word `w = readU16 bmp (s.inPos + 2 * t)` as exactly
`red = (w &&& 0x7C00) >>> 7`, `green = (w &&& 0x03E0) >>> 2`,
`blue = (w &&& 0x001F) <<< 3` (the reserved byte is left untouched). -/
theorem convert_row_16_decode (bmp : List Nat) (dib : BmpDib) (mapOff outBase : Nat)
    (hd : dib.depth = 16) :
    ∀ fuel x s t, dib.x - x ≤ fuel → x + t < dib.x →
      (convert_row bmp dib mapOff outBase fuel x s).buf (outBase + (x + t))
        = ⟨(readU16 bmp (s.inPos + 2 * t) &&& 0x1f) <<< 3,
           (readU16 bmp (s.inPos + 2 * t) &&& 0x3e0) >>> 2,
           (readU16 bmp (s.inPos + 2 * t) &&& 0x7c00) >>> 7,
           (s.buf (outBase + (x + t))).reserved⟩ := by
  intro fuel
  induction fuel with
  | zero =>
    intro x s t hf ht
    omega
  | succ fuel ih =>
    intro x s t hf ht
    have h : x < dib.x := by omega
    rw [convert_row, if_pos h, if_neg (by omega), if_neg (by omega), if_neg (by omega),
      if_pos hd]
    dsimp only [setRGB, logReads]
    cases t with
    | zero =>
      simp only [Nat.add_zero, Nat.mul_zero]
      rw [convert_row_16_frame bmp dib mapOff outBase hd fuel (x + 1) _ (outBase + x)
        (by omega)]
      dsimp [updateBuf]
      rw [if_pos rfl]
    | succ u =>
      have hidx : x + Nat.succ u = x + 1 + u := by omega
      rw [hidx]
      rw [ih (x + 1) _ u (by omega) (by omega)]
      dsimp only [updateBuf]
      rw [if_neg (show ¬ outBase + (x + 1 + u) = outBase + x by omega)]
      have harg : s.inPos + 2 + 2 * u = s.inPos + 2 * Nat.succ u := by omega
      rw [harg]

/-- Witness for C6 at a concrete depth-4 image of odd width 3 and height
2: after both rows the cursor advanced by exactly two 4-byte strides,
and the write order is output row 1 then output row 0. -/
theorem bmp_to_blt_row_order_witness :
    ((⟨40, 3, 2, 4, 0, 0⟩ : BmpDib).depth = 4 ∧ 2 ≤ (⟨40, 3, 2, 4, 0, 0⟩ : BmpDib).y ∧
      (⟨40, 3, 2, 4, 0, 0⟩ : BmpDib).y * bmp_row_size ⟨40, 3, 2, 4, 0, 0⟩ + 3 < 2 ^ 64) ∧
    (bmp_to_blt_loop (List.replicate 70 171) ⟨40, 3, 2, 4, 0, 0⟩ 54 62 2 0
        (initConvState 62 (fun _ => ⟨0, 0, 0, 0⟩))).inPos
      = 62 + 2 * bmp_row_size ⟨40, 3, 2, 4, 0, 0⟩ ∧
    (bmp_to_blt_loop (List.replicate 70 171) ⟨40, 3, 2, 4, 0, 0⟩ 54 62 2 0
        (initConvState 62 (fun _ => ⟨0, 0, 0, 0⟩))).writes = [3, 4, 5, 0, 1, 2] :=
  ⟨⟨rfl, by decide, by decide⟩,
    (bmp_to_blt_row_order (List.replicate 70 171) ⟨40, 3, 2, 4, 0, 0⟩ 54 62
      (fun _ => ⟨0, 0, 0, 0⟩) 2 (Or.inr (Or.inl rfl)) (by decide) (by decide)).1,
    ((bmp_to_blt_row_order (List.replicate 70 171) ⟨40, 3, 2, 4, 0, 0⟩ 54 62
      (fun _ => ⟨0, 0, 0, 0⟩) 2 (Or.inr (Or.inl rfl)) (by decide) (by decide)).2.1).trans
      (by decide)⟩

/-- Witness for C5: decoding the concrete 16-bit word `0x1234` (stored
little-endian as bytes `0x34 0x12` at pixel 1 of a 2-pixel row) yields
exactly `(R, G, B) = (32, 136, 160)` and preserves the reserved byte. -/
theorem convert_row_16_decode_witness :
    ((⟨40, 2, 1, 16, 0, 0⟩ : BmpDib).x - 0 ≤ 2 ∧ 0 + 1 < (⟨40, 2, 1, 16, 0, 0⟩ : BmpDib).x) ∧
    (convert_row [0, 0, 52, 18] ⟨40, 2, 1, 16, 0, 0⟩ 0 0 2 0
        (initConvState 0 (fun _ => ⟨0, 0, 0, 9⟩))).buf (0 + (0 + 1)) = ⟨160, 136, 32, 9⟩ :=
  ⟨⟨by decide, by decide⟩,
    (convert_row_16_decode [0, 0, 52, 18] ⟨40, 2, 1, 16, 0, 0⟩ 0 0 rfl 2 0
        (initConvState 0 (fun _ => ⟨0, 0, 0, 9⟩)) 1 (by decide) (by decide)).trans
      (by decide)⟩

/-- Calls made to the display protocol (`GraphicsOutput->Blt` fills,
buffer captures, buffer writes, and `graphics_mode(TRUE)`). -/
inductive DisplayOp where
  | fill (color : Pixel) (w h : Nat)
  | readPixels (x y w h : Nat)
  | setMode
  | writePixels (x y w h : Nat)
deriving DecidableEq

/-- The centering offset computation of `graphics_splash`
(splash.c lines 290-293): `x_pos`/`y_pos` start at 0 and are set to
`(resolution - dimension) / 2` only when the image dimension is strictly
below the resolution. -/
def splash_offset (res dim : Nat) : Nat := if dim < res then (res - dim) / 2 else 0

/-- Embedding of `graphics_splash` (splash.c lines 257-325), with the
external display collaborators modelled as always succeeding.  The
returned trace lists the surface operations in program order: background
fill, capture of the splash footprint, switch to graphics mode, write of
the converted image (the pixel conversion itself happens in memory
between the capture and the write and touches no display state).
Validation (line 286) runs before the background fill (line 295), so a
validation failure returns before any display call. -/
def graphics_splash (content : List Nat) (background : Option Pixel) (vendorApple : Bool)
    (hres vres : Nat) : EfiStatus × List DisplayOp :=
  if content.length = 0 then (.success, [])
  else
    let bg := match background with
      | some p => p
      | none => if vendorApple then ⟨0xc0, 0xc0, 0xc0, 0⟩ else ⟨0, 0, 0, 0⟩
    match bmp_parse_header content with
    | .error e => (e, [])
    | .ok r =>
      let x_pos := splash_offset hres r.dib.x
      let y_pos := splash_offset vres r.dib.y
      (.success,
        [.fill bg hres vres,
         .readPixels x_pos y_pos r.dib.x r.dib.y,
         .setMode,
         .writePixels x_pos y_pos r.dib.x r.dib.y])

/-- A valid 70-byte 24-bit 2x2 image (two 8-byte padded rows). -/
def bmp2x2 : List Nat :=
  [66, 77, 70, 0, 0, 0, 0, 0, 0, 0, 54, 0, 0, 0,
   40, 0, 0, 0, 2, 0, 0, 0, 2, 0, 0, 0, 1, 0, 24, 0,
   0, 0, 0, 0] ++ List.replicate 36 0

/-- C4: the placement offset on each axis equals
`max(0, (surfaceExtent - imageExtent) / 2)` (computed over the
integers), is 0 whenever the image is at least as large as the surface
on that axis, and on a 10x10 surface a 2-pixel extent is placed at
offset 4 while a 20-pixel extent is placed at offset 0; a valid 2x2
image composited on a 10x10 surface is captured and written back at
position (4,4). -/
theorem splash_offset_spec (res dim k : Nat) :
    (splash_offset res dim : Int) = max 0 (((res : Int) - (dim : Int)) / 2) ∧
    splash_offset res (res + k) = 0 ∧
    splash_offset 10 2 = 4 ∧ splash_offset 10 20 = 0 ∧
    graphics_splash bmp2x2 none false 10 10 =
      (.success, [.fill ⟨0, 0, 0, 0⟩ 10 10, .readPixels 4 4 2 2, .setMode,
        .writePixels 4 4 2 2]) := by
  refine ⟨?_, ?_, by decide, by decide, rfl⟩
  · unfold splash_offset
    split <;> omega
  · unfold splash_offset
    split <;> omega

/-- C9: rendering an empty input succeeds immediately and performs no
display operation at all: no fill, no capture, no write, no mode
switch. -/
theorem graphics_splash_empty (background : Option Pixel) (vendorApple : Bool)
    (hres vres : Nat) :
    graphics_splash [] background vendorApple hres vres = (.success, []) := rfl

/-- C3 counterexample: for the non-empty 10-byte input that fails header
validation, rendering returns the validation failure with an empty
display trace, so in particular the target surface has not been filled
with the background color at that point, contrary to the claim that the
fill precedes validation. -/
theorem graphics_splash_fill_after_validation :
    graphics_splash bmpTooSmall none false 10 10 = (.invalidParameter, []) ∧
    bmpTooSmall ≠ [] := ⟨rfl, by decide⟩

/-- C3 (amended): for every non-empty input that fails header
validation, rendering aborts and returns exactly the validation failure,
and at that point no display operation has been performed: validation
(splash.c line 286) precedes the background fill (line 295), so the fill
is not visible on validation failure. -/
theorem graphics_splash_validation_aborts (content : List Nat) (background : Option Pixel)
    (vendorApple : Bool) (hres vres : Nat) (e : EfiStatus)
    (hne : content ≠ [])
    (he : bmp_parse_header content = .error e) :
    graphics_splash content background vendorApple hres vres = (e, []) := by
  unfold graphics_splash
  rw [if_neg (by simpa using hne), he]

/-- Witness for the amended C3 at the concrete 10-byte input. -/
theorem graphics_splash_validation_aborts_witness :
    (bmpTooSmall ≠ [] ∧ bmp_parse_header bmpTooSmall = .error .invalidParameter) ∧
    graphics_splash bmpTooSmall none false 10 10 = (.invalidParameter, []) :=
  ⟨⟨by decide, rfl⟩,
    graphics_splash_validation_aborts bmpTooSmall none false 10 10 .invalidParameter
      (by decide) rfl⟩
